import Mathlib

/-!
Shallow embedding of the sol-tx repository (src/transaction/transfer.ts and the
wallet manager): the `TransferManager` operations `sendSOL`,
`estimateTransactionFee`, `checkAddressExists`, and the `WalletManager`
constructor (key parsing), `getPrivateKey` and `validateForTransactions`.

Network interaction is modelled by an explicit environment record
(`NetworkEnv`) holding the responses the `Connection` collaborator would
return for the single transfer under analysis, and each operation also returns
the ordered list of network effects (`NetEffect`) it performed, so that
ordering and absence of submission are provable.  JavaScript numbers are
embedded as exact rationals (`ℚ`); at every concrete input used below the
JavaScript double computation is exact, so the rational embedding agrees with
the source on those inputs.  A thrown JavaScript `Error` is embedded as
`Except.error` carrying the data interpolated into the error message.
-/

namespace SolTx

/-- Scale factor of the reference network: 1 SOL = 10^9 lamports
(`LAMPORTS_PER_SOL` from the SDK). -/
def LAMPORTS_PER_SOL : ℚ := 1000000000

/-- Base-58 address of the native system program, as hard-coded twice in the
source (`"11111111111111111111111111111111"`). -/
def systemProgramId : String := "11111111111111111111111111111111"

/-- Result of `connection.getAccountInfo`: the owning program of an existing
account (only the field the source inspects). -/
structure AccountInfo where
  owner : String
deriving DecidableEq

/-- Outcome of the SDK call `sendAndConfirmTransaction`: success with a
signature, a `SendTransactionError` carrying optional diagnostic logs
(obtained by `error.getLogs`), or any other error. -/
inductive SendResult where
  | success (sig : String)
  | sendTxError (msg : String) (logs : Option (List String))
  | otherError (msg : String)
deriving DecidableEq

/-- The network collaborator's responses for one transfer:
`accountInfo` is what `getAccountInfo(sender)` returns (`none` = account does
not exist), `balance` what `getBalance` returns (lamports), `feeValue` the
`value` field of `getFeeForMessage` (`none` = null), and `sendResult` the
outcome of `sendAndConfirmTransaction`. -/
structure NetworkEnv where
  accountInfo : Option AccountInfo
  balance : ℚ
  feeValue : Option ℚ
  sendResult : SendResult
deriving DecidableEq

/-- A network round trip performed by the pipeline, in the order recorded. -/
inductive NetEffect where
  | getAccountInfo
  | getBalance
  | getLatestBlockhash
  | getFeeForMessage
  | sendAndConfirm
deriving DecidableEq

/-- The errors `sendSOL` can throw, carrying exactly the data the source
interpolates into the thrown `Error` message.  In particular
`insufficientBalance` carries the four numbers of the message
"Insufficient balance. You have {balance/LAMPORTS_PER_SOL} SOL, but need
{totalRequired/LAMPORTS_PER_SOL} SOL ({amountSOL} SOL + {estimatedFee} SOL
fee)": all four are in SOL units. -/
inductive TransferError where
  | nonSignerAccount (owner : String)
  | insufficientBalance (haveSOL needSOL amountSOL feeSOL : ℚ)
  | transactionFailed (message : String)
  | otherFailure (message : String)
deriving DecidableEq

/-- Embedding of `TransferManager.estimateTransactionFee`.  The source builds
the transfer instruction, fetches a blockhash, asks `getFeeForMessage`, and
returns `fee.value ? fee.value / LAMPORTS_PER_SOL : 0` — i.e. the fee in SOL
(a JavaScript number), with both `null` and `0` mapped to `0` by truthiness.
Returned together with the network effects it performs. -/
def estimateTransactionFee (env : NetworkEnv) : ℚ × List NetEffect :=
  let fee : ℚ :=
    match env.feeValue with
    | some v => if v ≠ 0 then v / LAMPORTS_PER_SOL else 0
    | none => 0
  (fee, [NetEffect.getLatestBlockhash, NetEffect.getFeeForMessage])

/-- The fee value, in SOL, that `estimateTransactionFee` hands back to
`sendSOL`. -/
def estimatedFeeSOL (env : NetworkEnv) : ℚ := (estimateTransactionFee env).1

/-- The total `lamports + estimatedFee * LAMPORTS_PER_SOL` that `sendSOL`
compares against the sender balance. -/
def totalRequiredLamports (env : NetworkEnv) (amountSOL : ℚ) : ℚ :=
  amountSOL * LAMPORTS_PER_SOL + estimatedFeeSOL env * LAMPORTS_PER_SOL

/-- Text appended after "Logs: " in the rejection message:
`logs?.join("\n") || "No logs available"` — the join of the log lines, or the
fallback when the logs are absent or join to the empty string. -/
def logsText : Option (List String) → String
  | some ls =>
      let joined := String.intercalate "\n" ls
      if joined = "" then "No logs available" else joined
  | none => "No logs available"

/-- The message of the `Error` re-thrown by `sendSOL` when
`sendAndConfirmTransaction` fails with a `SendTransactionError`. -/
def txFailMessage (msg : String) (logs : Option (List String)) : String :=
  "Transaction failed: " ++ msg ++ "\nLogs: " ++ logsText logs

/-- The part of `sendSOL` after the sender-owner validation: balance query,
fee estimation, the insufficient-balance check, and (only if it passes)
blockhash fetch and the sign/submit/confirm SDK call. -/
def sendAfterOwnerCheck (env : NetworkEnv) (amountSOL : ℚ) :
    Except TransferError String × List NetEffect :=
  let lamports := amountSOL * LAMPORTS_PER_SOL
  let senderBalance := env.balance
  let est := estimateTransactionFee env
  let estimatedFee := est.1
  let totalRequired := lamports + estimatedFee * LAMPORTS_PER_SOL
  if senderBalance < totalRequired then
    (Except.error (TransferError.insufficientBalance
        (senderBalance / LAMPORTS_PER_SOL) (totalRequired / LAMPORTS_PER_SOL)
        amountSOL estimatedFee),
      NetEffect.getBalance :: est.2)
  else
    let fullTrace := NetEffect.getBalance :: est.2 ++
      [NetEffect.getLatestBlockhash, NetEffect.sendAndConfirm]
    match env.sendResult with
    | SendResult.success sig => (Except.ok sig, fullTrace)
    | SendResult.sendTxError msg logs =>
        (Except.error (TransferError.transactionFailed (txFailMessage msg logs)), fullTrace)
    | SendResult.otherError msg =>
        (Except.error (TransferError.otherFailure msg), fullTrace)

/-- Embedding of `TransferManager.sendSOL`.  The source first queries the
sender's account info and throws if the account exists with an owner other
than the system program; otherwise it queries the balance, estimates the fee,
performs the insufficient-balance check, and only then fetches a blockhash and
calls `sendAndConfirmTransaction`, wrapping `SendTransactionError` with its
logs. -/
def sendSOL (env : NetworkEnv) (amountSOL : ℚ) :
    Except TransferError String × List NetEffect :=
  match env.accountInfo with
  | some ai =>
      if ai.owner = systemProgramId then
        let rest := sendAfterOwnerCheck env amountSOL
        (rest.1, NetEffect.getAccountInfo :: rest.2)
      else
        (Except.error (TransferError.nonSignerAccount ai.owner),
          [NetEffect.getAccountInfo])
  | none =>
      let rest := sendAfterOwnerCheck env amountSOL
      (rest.1, NetEffect.getAccountInfo :: rest.2)

/-- The sender-owner validation of `sendSOL` passes: the account either does
not exist or is owned by the system program. -/
def ownerOk (env : NetworkEnv) : Bool :=
  match env.accountInfo with
  | some ai => ai.owner == systemProgramId
  | none => true

/-- Embedding of `TransferManager.checkAddressExists`: the argument is the
outcome of `connection.getAccountInfo` (which may throw); the source returns
`accountInfo !== null` and maps any thrown error to `false`. -/
def checkAddressExists (accountInfoResult : Except String (Option AccountInfo)) : Bool :=
  match accountInfoResult with
  | Except.ok accountInfo => accountInfo.isSome
  | Except.error _ => false

/-- Error thrown by `WalletManager.validateForTransactions` for an account
owned by a program other than the system program. -/
inductive WalletValidationError where
  | notSystemAccount (owner : String)
deriving DecidableEq

/-- Embedding of `WalletManager.validateForTransactions`: throws exactly when
the account exists and its owner is not the system program; an absent account
passes (it will be created on first transaction). -/
def validateForTransactions (accountInfo : Option AccountInfo) :
    Except WalletValidationError Unit :=
  match accountInfo with
  | some ai =>
      if ai.owner ≠ systemProgramId then
        Except.error (WalletValidationError.notSystemAccount ai.owner)
      else Except.ok ()
  | none => Except.ok ()

/-! Helper lemmas about the transfer pipeline, shared by the claim theorems. -/

lemma sendSOL_ownerOk_eq (env : NetworkEnv) (a : ℚ) (h : ownerOk env = true) :
    sendSOL env a = ((sendAfterOwnerCheck env a).1,
      NetEffect.getAccountInfo :: (sendAfterOwnerCheck env a).2) := by
  unfold sendSOL
  unfold ownerOk at h
  cases hinfo : env.accountInfo with
  | none => rfl
  | some ai =>
      rw [hinfo] at h
      dsimp only
      rw [if_pos (eq_of_beq h)]

lemma sendAfterOwnerCheck_insufficient (env : NetworkEnv) (a : ℚ)
    (hbal : env.balance < totalRequiredLamports env a) :
    sendAfterOwnerCheck env a = (Except.error
      (TransferError.insufficientBalance (env.balance / LAMPORTS_PER_SOL)
        (totalRequiredLamports env a / LAMPORTS_PER_SOL) a (estimatedFeeSOL env)),
      [NetEffect.getBalance, NetEffect.getLatestBlockhash, NetEffect.getFeeForMessage]) := by
  unfold sendAfterOwnerCheck
  dsimp only
  split
  · rfl
  · next h' => exact absurd hbal h'

lemma sendAfterOwnerCheck_sufficient (env : NetworkEnv) (a : ℚ)
    (hbal : ¬ env.balance < totalRequiredLamports env a) :
    sendAfterOwnerCheck env a =
      ((match env.sendResult with
        | SendResult.success sig => Except.ok sig
        | SendResult.sendTxError msg logs =>
            Except.error (TransferError.transactionFailed (txFailMessage msg logs))
        | SendResult.otherError msg => Except.error (TransferError.otherFailure msg)),
       [NetEffect.getBalance, NetEffect.getLatestBlockhash, NetEffect.getFeeForMessage,
        NetEffect.getLatestBlockhash, NetEffect.sendAndConfirm]) := by
  unfold sendAfterOwnerCheck
  dsimp only
  split
  · next h' => exact absurd h' hbal
  · cases env.sendResult <;> rfl

/-! Concrete network environments used by counterexamples and witnesses.
Both use the fee 5000 lamports and the transfer amount 1/2 SOL
(= 500000000 lamports) of the spec's worked example; `envRich` holds
1000000000 lamports, `envPoor` 400000000. -/

/-- Sender with 1 SOL, absent account info, fee query answering 5000
lamports, and a succeeding submission. -/
def envRich : NetworkEnv :=
  { accountInfo := none, balance := 1000000000, feeValue := some 5000,
    sendResult := SendResult.success "sig" }

/-- Same collaborator as `envRich` but the sender holds only 400000000
lamports. -/
def envPoor : NetworkEnv :=
  { accountInfo := none, balance := 400000000, feeValue := some 5000,
    sendResult := SendResult.success "sig" }

/-- C1, counterexample.  At balance 400000000 lamports, amount 1/2 SOL and fee
5000 lamports, `sendSOL` throws the insufficient-balance error, but the four
numbers interpolated into its message are the balance and the required total
divided by `LAMPORTS_PER_SOL` (0.4 and 0.500005 SOL), the amount (0.5 SOL) and
the fee (0.000005 SOL): none of them is the shortfall in smallest units,
100005000 lamports — the message reports neither the shortfall nor any value
in smallest units, refuting the claim's description of the error payload.  The
no-submission part of the claim does hold, as the last conjunct shows. -/
theorem sendSOL_shortfall_not_reported :
    (sendSOL envPoor (1/2)).1 = Except.error
      (TransferError.insufficientBalance (2/5) (100001/200000) (1/2) (1/200000)) ∧
    ((2 : ℚ)/5 ≠ 100005000 ∧ (100001 : ℚ)/200000 ≠ 100005000 ∧
      ((1 : ℚ)/2) ≠ 100005000 ∧ ((1 : ℚ)/200000) ≠ 100005000) ∧
    NetEffect.sendAndConfirm ∉ (sendSOL envPoor (1/2)).2 := by
  have hbal : envPoor.balance < totalRequiredLamports envPoor (1/2) := by
    norm_num [envPoor, totalRequiredLamports, estimatedFeeSOL, estimateTransactionFee,
      LAMPORTS_PER_SOL]
  rw [sendSOL_ownerOk_eq envPoor (1/2) rfl, sendAfterOwnerCheck_insufficient _ _ hbal]
  refine ⟨?_, ⟨by norm_num, by norm_num, by norm_num, by norm_num⟩, ?_⟩
  · norm_num [envPoor, totalRequiredLamports, estimatedFeeSOL, estimateTransactionFee,
      LAMPORTS_PER_SOL]
  · dsimp only
    decide

/-- C1, amended.  Whenever the sender's queried balance is strictly below
amount + estimated fee (in lamports), `sendSOL` fails with the
insufficient-balance error — whose payload is the queried balance and the
required total converted to SOL, together with the amount and fee in SOL, not
the shortfall in smallest units — and the effect trace contains no
`sendAndConfirmTransaction` call, i.e. no network submission is performed. -/
theorem sendSOL_insufficient_reports_have_need_no_submit (env : NetworkEnv)
    (amountSOL : ℚ) (howner : ownerOk env = true)
    (hbal : env.balance < totalRequiredLamports env amountSOL) :
    (sendSOL env amountSOL).1 = Except.error
      (TransferError.insufficientBalance (env.balance / LAMPORTS_PER_SOL)
        (totalRequiredLamports env amountSOL / LAMPORTS_PER_SOL)
        amountSOL (estimatedFeeSOL env)) ∧
    NetEffect.sendAndConfirm ∉ (sendSOL env amountSOL).2 := by
  rw [sendSOL_ownerOk_eq _ _ howner, sendAfterOwnerCheck_insufficient _ _ hbal]
  refine ⟨rfl, ?_⟩
  dsimp only
  decide

/-- C1, witness: the amended theorem applied at `envPoor` with amount 1/2 SOL. -/
theorem sendSOL_insufficient_reports_have_need_no_submit_witness :
    (sendSOL envPoor (1/2)).1 = Except.error
      (TransferError.insufficientBalance (envPoor.balance / LAMPORTS_PER_SOL)
        (totalRequiredLamports envPoor (1/2) / LAMPORTS_PER_SOL)
        (1/2) (estimatedFeeSOL envPoor)) ∧
    NetEffect.sendAndConfirm ∉ (sendSOL envPoor (1/2)).2 :=
  sendSOL_insufficient_reports_have_need_no_submit envPoor (1/2) rfl
    (by norm_num [envPoor, totalRequiredLamports, estimatedFeeSOL,
      estimateTransactionFee, LAMPORTS_PER_SOL])

/-- C2, counterexample.  For a 5000-lamport fee the value handed from
`estimateTransactionFee` to `sendSOL` is 1/200000 — the fee in SOL, a number
strictly between 0 and 1, hence not an integer count of smallest units; the
lamport count is only recovered inside `sendSOL` by multiplying by 10^9 again.
The fee/comparison arithmetic therefore leaves the integer smallest-unit
representation between pipeline stages (not merely at the I/O boundary),
refuting the universally quantified part of the claim. -/
theorem estimateTransactionFee_returns_SOL_not_lamports :
    estimatedFeeSOL envRich = 1/200000 ∧ 0 < estimatedFeeSOL envRich ∧
    estimatedFeeSOL envRich < 1 ∧
    estimatedFeeSOL envRich * LAMPORTS_PER_SOL = 5000 := by
  norm_num [estimatedFeeSOL, estimateTransactionFee, envRich, LAMPORTS_PER_SOL]

/-- C2, amended.  The fee travels between `estimateTransactionFee` and
`sendSOL` in the human SOL unit and is scaled back by 10^9 inside `sendSOL`;
in the exact-rational embedding (which coincides with the JavaScript double
computation at these inputs, where every intermediate is exactly
representable) the worked example of the claim holds: with fee 5000 lamports
and amount 1/2 SOL the required total is exactly 500005000 lamports, the
transfer succeeds at balance 1000000000 and fails at balance 400000000 with a
deficit of exactly 100005000 lamports (a value the raised error does not
itself carry). -/
theorem transfer_arithmetic_exact_examples :
    (sendSOL envRich (1/2)).1 = Except.ok "sig" ∧
    totalRequiredLamports envRich (1/2) = 500005000 ∧
    (sendSOL envPoor (1/2)).1 = Except.error
      (TransferError.insufficientBalance (2/5) (100001/200000) (1/2) (1/200000)) ∧
    totalRequiredLamports envPoor (1/2) - envPoor.balance = 100005000 := by
  have hrich : ¬ envRich.balance < totalRequiredLamports envRich (1/2) := by
    norm_num [envRich, totalRequiredLamports, estimatedFeeSOL, estimateTransactionFee,
      LAMPORTS_PER_SOL]
  have hpoor : envPoor.balance < totalRequiredLamports envPoor (1/2) := by
    norm_num [envPoor, totalRequiredLamports, estimatedFeeSOL, estimateTransactionFee,
      LAMPORTS_PER_SOL]
  refine ⟨?_, ?_, ?_, ?_⟩
  · rw [sendSOL_ownerOk_eq envRich (1/2) rfl, sendAfterOwnerCheck_sufficient _ _ hrich]
    rfl
  · norm_num [envRich, totalRequiredLamports, estimatedFeeSOL, estimateTransactionFee,
      LAMPORTS_PER_SOL]
  · rw [sendSOL_ownerOk_eq envPoor (1/2) rfl, sendAfterOwnerCheck_insufficient _ _ hpoor]
    norm_num [envPoor, totalRequiredLamports, estimatedFeeSOL, estimateTransactionFee,
      LAMPORTS_PER_SOL]
  · norm_num [envPoor, totalRequiredLamports, estimatedFeeSOL, estimateTransactionFee,
      LAMPORTS_PER_SOL]

/-- C4.  If the sender account exists and its owner is not the system program,
`sendSOL` throws the non-signer error immediately after the account-info
query: the whole effect trace is the single `getAccountInfo` call, so no fee
estimation, signing or submission was attempted. -/
theorem sendSOL_nonSigner_stops_early (env : NetworkEnv) (amountSOL : ℚ)
    (ai : AccountInfo) (hinfo : env.accountInfo = some ai)
    (howner : ai.owner ≠ systemProgramId) :
    sendSOL env amountSOL = (Except.error (TransferError.nonSignerAccount ai.owner),
      [NetEffect.getAccountInfo]) ∧
    NetEffect.getFeeForMessage ∉ (sendSOL env amountSOL).2 ∧
    NetEffect.sendAndConfirm ∉ (sendSOL env amountSOL).2 := by
  have heq : sendSOL env amountSOL =
      (Except.error (TransferError.nonSignerAccount ai.owner), [NetEffect.getAccountInfo]) := by
    unfold sendSOL
    rw [hinfo]
    dsimp only
    rw [if_neg howner]
  rw [heq]
  refine ⟨rfl, ?_, ?_⟩ <;> (dsimp only; decide)

/-- Account owned by the SPL token program rather than the system program. -/
def envTokenOwned : NetworkEnv :=
  { accountInfo := some { owner := "TokenkegQfeZyiNwAJbNbGKPFXCWuBvf9Ss623VQ5DA" },
    balance := 1000000000, feeValue := some 5000,
    sendResult := SendResult.success "sig" }

/-- C4, witness: applied to a token-program-owned sender. -/
theorem sendSOL_nonSigner_stops_early_witness :
    sendSOL envTokenOwned (1/2) = (Except.error
      (TransferError.nonSignerAccount "TokenkegQfeZyiNwAJbNbGKPFXCWuBvf9Ss623VQ5DA"),
      [NetEffect.getAccountInfo]) ∧
    NetEffect.getFeeForMessage ∉ (sendSOL envTokenOwned (1/2)).2 ∧
    NetEffect.sendAndConfirm ∉ (sendSOL envTokenOwned (1/2)).2 :=
  sendSOL_nonSigner_stops_early envTokenOwned (1/2) _ rfl (by decide)

/-- C5.  When `sendAndConfirmTransaction` fails with a `SendTransactionError`
whose `getLogs` yields log lines `ls`, the error `sendSOL` raises carries the
log lines verbatim: the message of the raised error contains
`ls` joined by newlines ("Logs: " followed by `logs.join("\n")`) as a
contiguous substring — the logs are never swallowed. -/
theorem sendSOL_surfaces_logs (env : NetworkEnv) (amountSOL : ℚ) (m : String)
    (ls : List String) (howner : ownerOk env = true)
    (hbal : ¬ env.balance < totalRequiredLamports env amountSOL)
    (hsend : env.sendResult = SendResult.sendTxError m (some ls)) :
    ∃ pre post, (sendSOL env amountSOL).1 = Except.error
      (TransferError.transactionFailed (pre ++ String.intercalate "\n" ls ++ post)) := by
  rw [sendSOL_ownerOk_eq _ _ howner, sendAfterOwnerCheck_sufficient _ _ hbal]
  dsimp only
  rw [hsend]
  dsimp only [txFailMessage, logsText]
  by_cases hj : String.intercalate "\n" ls = ""
  · refine ⟨"Transaction failed: " ++ m ++ "\nLogs: " ++ "No logs available", "", ?_⟩
    rw [hj, if_pos rfl]
    simp
  · refine ⟨"Transaction failed: " ++ m ++ "\nLogs: ", "", ?_⟩
    rw [if_neg hj]
    simp [String.append_assoc]

/-- Environment whose submission fails with diagnostic logs. -/
def envRejected : NetworkEnv :=
  { accountInfo := none, balance := 1000000000, feeValue := some 5000,
    sendResult := SendResult.sendTxError "simulation failed"
      (some ["Program log: custom error", "Program failed to complete"]) }

/-- C5, witness: the theorem applied to `envRejected`. -/
theorem sendSOL_surfaces_logs_witness :
    ∃ pre post, (sendSOL envRejected (1/2)).1 = Except.error
      (TransferError.transactionFailed (pre ++ String.intercalate "\n"
        ["Program log: custom error", "Program failed to complete"] ++ post)) :=
  sendSOL_surfaces_logs envRejected (1/2) "simulation failed"
    ["Program log: custom error", "Program failed to complete"] rfl
    (by norm_num [envRejected, totalRequiredLamports, estimatedFeeSOL,
      estimateTransactionFee, LAMPORTS_PER_SOL]) rfl

/-- C6, counterexample.  On the fully successful concrete run (`envRich`,
amount 1/2 SOL) the network-effect trace is
[getAccountInfo, getBalance, getLatestBlockhash, getFeeForMessage,
getLatestBlockhash, sendAndConfirm]: the balance query sits at index 1,
before the fee-estimation round trips, and the effect immediately preceding
the sign/submit/confirm call (index 4) is the blockhash fetch, not a balance
query — refuting "verified via a fresh balance query immediately before
signing"; three network round trips separate the balance query from
signing. -/
theorem sendSOL_balance_query_not_adjacent_to_signing :
    (sendSOL envRich (1/2)).1 = Except.ok "sig" ∧
    (sendSOL envRich (1/2)).2 =
      [NetEffect.getAccountInfo, NetEffect.getBalance, NetEffect.getLatestBlockhash,
       NetEffect.getFeeForMessage, NetEffect.getLatestBlockhash, NetEffect.sendAndConfirm] ∧
    (sendSOL envRich (1/2)).2.get? 5 = some NetEffect.sendAndConfirm ∧
    (sendSOL envRich (1/2)).2.get? 4 = some NetEffect.getLatestBlockhash ∧
    (sendSOL envRich (1/2)).2.get? 1 = some NetEffect.getBalance ∧
    NetEffect.getLatestBlockhash ≠ NetEffect.getBalance := by
  have hrich : ¬ envRich.balance < totalRequiredLamports envRich (1/2) := by
    norm_num [envRich, totalRequiredLamports, estimatedFeeSOL, estimateTransactionFee,
      LAMPORTS_PER_SOL]
  rw [sendSOL_ownerOk_eq envRich (1/2) rfl, sendAfterOwnerCheck_sufficient _ _ hrich]
  refine ⟨rfl, rfl, rfl, rfl, rfl, by decide⟩

/-- C6, amended.  A transfer that reaches submission performs, in order:
classify (getAccountInfo), balance query (getBalance), fee estimation
(getLatestBlockhash then getFeeForMessage), the pure balance check, a fresh
blockhash fetch, and the SDK sign/submit/confirm call — so the order is
classify → balance-query → estimate → balance-check → sign → submit →
confirm.  The balance is queried afresh inside every `sendSOL` call (never
reused from an earlier check), but the query precedes fee estimation rather
than coming immediately before signing. -/
theorem sendSOL_success_step_order (env : NetworkEnv) (amountSOL : ℚ)
    (sig : String) (howner : ownerOk env = true)
    (hbal : ¬ env.balance < totalRequiredLamports env amountSOL)
    (hsend : env.sendResult = SendResult.success sig) :
    sendSOL env amountSOL = (Except.ok sig,
      [NetEffect.getAccountInfo, NetEffect.getBalance, NetEffect.getLatestBlockhash,
       NetEffect.getFeeForMessage, NetEffect.getLatestBlockhash, NetEffect.sendAndConfirm]) := by
  rw [sendSOL_ownerOk_eq _ _ howner, sendAfterOwnerCheck_sufficient _ _ hbal]
  rw [hsend]

/-- C6, witness: the amended theorem applied at `envRich`. -/
theorem sendSOL_success_step_order_witness :
    sendSOL envRich (1/2) = (Except.ok "sig",
      [NetEffect.getAccountInfo, NetEffect.getBalance, NetEffect.getLatestBlockhash,
       NetEffect.getFeeForMessage, NetEffect.getLatestBlockhash, NetEffect.sendAndConfirm]) :=
  sendSOL_success_step_order envRich (1/2) "sig" rfl
    (by norm_num [envRich, totalRequiredLamports, estimatedFeeSOL,
      estimateTransactionFee, LAMPORTS_PER_SOL]) rfl

/-- C7.  An account that does not exist on-chain (account-info query returns
null) is classified as usable: `validateForTransactions` succeeds without
error, and `sendSOL` never raises the non-signer error for an absent sender
account — in particular a freshly generated, never-funded identity passes
classification. -/
theorem validateForTransactions_absent_ok :
    validateForTransactions none = Except.ok () ∧
    ∀ (env : NetworkEnv) (amountSOL : ℚ) (o : String), env.accountInfo = none →
      (sendSOL env amountSOL).1 ≠ Except.error (TransferError.nonSignerAccount o) := by
  refine ⟨rfl, ?_⟩
  intro env a o hinfo
  have howner : ownerOk env = true := by unfold ownerOk; rw [hinfo]
  rw [sendSOL_ownerOk_eq _ _ howner]
  dsimp only
  by_cases hbal : env.balance < totalRequiredLamports env a
  · rw [sendAfterOwnerCheck_insufficient _ _ hbal]
    simp
  · rw [sendAfterOwnerCheck_sufficient _ _ hbal]
    dsimp only
    cases env.sendResult <;> simp

/-- C7, witness: at the absent-account environment `envRich`, `sendSOL` does
not produce a non-signer error. -/
theorem validateForTransactions_absent_ok_witness :
    (sendSOL envRich (1/2)).1 ≠ Except.error
      (TransferError.nonSignerAccount systemProgramId) :=
  validateForTransactions_absent_ok.2 envRich (1/2) systemProgramId rfl

/-- C9.  When `getFeeForMessage` yields a null (or zero) `value`,
`estimateTransactionFee` returns 0 rather than reporting the fee as
unavailable, the required total degenerates to the bare amount, and the
insufficient-balance check in `sendSOL` passes with no fee margin at all: a
balance exactly equal to the amount succeeds. -/
theorem estimateTransactionFee_null_gives_zero (env : NetworkEnv)
    (amountSOL : ℚ) (sig : String)
    (hfee : env.feeValue = none ∨ env.feeValue = some 0)
    (hinfo : env.accountInfo = none)
    (hbal : env.balance = amountSOL * LAMPORTS_PER_SOL)
    (hsend : env.sendResult = SendResult.success sig) :
    estimatedFeeSOL env = 0 ∧
    totalRequiredLamports env amountSOL = amountSOL * LAMPORTS_PER_SOL ∧
    (sendSOL env amountSOL).1 = Except.ok sig := by
  have hfee0 : estimatedFeeSOL env = 0 := by
    rcases hfee with h | h <;> simp [estimatedFeeSOL, estimateTransactionFee, h]
  have htot : totalRequiredLamports env amountSOL = amountSOL * LAMPORTS_PER_SOL := by
    unfold totalRequiredLamports
    rw [hfee0]
    ring
  have howner : ownerOk env = true := by unfold ownerOk; rw [hinfo]
  have hnlt : ¬ env.balance < totalRequiredLamports env amountSOL := by
    rw [htot, hbal]
    exact lt_irrefl _
  refine ⟨hfee0, htot, ?_⟩
  rw [sendSOL_ownerOk_eq _ _ howner, sendAfterOwnerCheck_sufficient _ _ hnlt]
  rw [hsend]

/-- Environment whose fee query returns null and whose balance is exactly the
transfer amount, with no margin for any fee. -/
def envNullFee : NetworkEnv :=
  { accountInfo := none, balance := 500000000, feeValue := none,
    sendResult := SendResult.success "sig" }

/-- C9, witness: the theorem applied at `envNullFee` with amount 1/2 SOL. -/
theorem estimateTransactionFee_null_gives_zero_witness :
    estimatedFeeSOL envNullFee = 0 ∧
    totalRequiredLamports envNullFee (1/2) = (1/2) * LAMPORTS_PER_SOL ∧
    (sendSOL envNullFee (1/2)).1 = Except.ok "sig" :=
  estimateTransactionFee_null_gives_zero envNullFee (1/2) "sig" (Or.inl rfl) rfl
    (by norm_num [envNullFee, LAMPORTS_PER_SOL]) rfl

/-- C10.  `checkAddressExists` is total over its error branch: a thrown
account-info query is mapped to `false`, the same boolean returned for an
account that does not exist; no exception propagates (the embedding returns a
`Bool` for every query outcome by construction). -/
theorem checkAddressExists_error_false (e : String) :
    checkAddressExists (Except.error e) = false ∧
    checkAddressExists (Except.ok none) = false :=
  ⟨rfl, rfl⟩

/-- C10, witness: the theorem applied to a concrete thrown query. -/
theorem checkAddressExists_error_false_witness :
    checkAddressExists (Except.error "network unreachable") = false ∧
    checkAddressExists (Except.ok none) = false :=
  checkAddressExists_error_false "network unreachable"

/-! Embedding of the `WalletManager` key handling.  The constructor first
tries to decode the raw string with the external bs58 library, checks for a
64-byte result and calls `Keypair.fromSecretKey`; if anything in that path
throws, it falls back to `JSON.parse`, requires an array, checks its length
and calls `Keypair.fromSecretKey` on `new Uint8Array(array)`; if that also
throws it raises the invalid-key-format error.  The two external decoders
(bs58 and `JSON.parse`) and the SDK's ed25519 public-key derivation are
parameters of the embedding; executable models of both decoders are defined
below and used by the witnesses.  A thrown error is an `Except.error`, caught
by the CLI boundary, so the failure is recoverable, not fatal. -/

/-- The SDK `Keypair`: 64 bytes of secret key material (seed ++ public key). -/
structure Keypair where
  secretKey : List ℕ
deriving DecidableEq

/-- The derived public key: the trailing 32 bytes of the secret key (what
`keypair.publicKey` exposes for a key accepted by `fromSecretKey`). -/
def Keypair.publicKey (kp : Keypair) : List ℕ := kp.secretKey.drop 32

/-- Model of `Keypair.fromSecretKey`: it throws unless the input is 64 bytes
whose trailing 32 bytes equal the public key the SDK's ed25519 derivation
(`derivePub`, abstracted) produces from the leading 32-byte seed. -/
def fromSecretKey (derivePub : List ℕ → List ℕ) (sk : List ℕ) : Option Keypair :=
  if sk.length = 64 ∧ sk.drop 32 = derivePub (sk.take 32) then some ⟨sk⟩ else none

/-- What `JSON.parse` returns, as far as the constructor inspects it: an
array of integers, or any non-array value. -/
inductive JsonValue where
  | intArray (xs : List ℤ)
  | nonArray
deriving DecidableEq

/-- JavaScript `Uint8Array` element coercion for an integral number: reduction
modulo 256 into 0..255. -/
def toUint8 (x : ℤ) : ℕ := (x % 256).toNat

/-- The decoding strategies the constructor attempts, in order. -/
inductive KeyAttempt where
  | base58
  | jsonArray
deriving DecidableEq

/-- The recoverable error the constructor raises when both decodings fail. -/
inductive KeyError where
  | invalidKeyFormat
deriving DecidableEq

/-- The fallback (inner try) of the `WalletManager` constructor: `JSON.parse`
the raw string, require an array of length 64 and an accepting
`fromSecretKey`; every throw inside this block becomes the generic
invalid-key-format error. -/
def parseIdentityJsonPath (jsonParse : String → Option JsonValue)
    (derivePub : List ℕ → List ℕ) (raw : String) : Except KeyError Keypair :=
  match jsonParse raw with
  | some (JsonValue.intArray xs) =>
      if xs.length = 64 then
        match fromSecretKey derivePub (xs.map toUint8) with
        | some kp => Except.ok kp
        | none => Except.error KeyError.invalidKeyFormat
      else Except.error KeyError.invalidKeyFormat
  | some JsonValue.nonArray => Except.error KeyError.invalidKeyFormat
  | none => Except.error KeyError.invalidKeyFormat

/-- Embedding of the `WalletManager` constructor (`parseIdentity`): try the
base-58 decoding first; on any failure in that path (undecodable input, wrong
length, rejected key) fall back to the JSON-array path.  Also returns the
ordered list of decoding strategies attempted. -/
def parseIdentity (b58decode : String → Option (List ℕ))
    (jsonParse : String → Option JsonValue) (derivePub : List ℕ → List ℕ)
    (raw : String) : Except KeyError Keypair × List KeyAttempt :=
  match b58decode raw with
  | some sk =>
      if sk.length = 64 then
        match fromSecretKey derivePub sk with
        | some kp => (Except.ok kp, [KeyAttempt.base58])
        | none => (parseIdentityJsonPath jsonParse derivePub raw,
            [KeyAttempt.base58, KeyAttempt.jsonArray])
      else (parseIdentityJsonPath jsonParse derivePub raw,
          [KeyAttempt.base58, KeyAttempt.jsonArray])
  | none => (parseIdentityJsonPath jsonParse derivePub raw,
      [KeyAttempt.base58, KeyAttempt.jsonArray])

/-- Embedding of `WalletManager.getPrivateKey`: the base-58 encoding (by the
external bs58 library, abstracted as `b58encode`) of the secret key. -/
def getPrivateKey (b58encode : List ℕ → String) (kp : Keypair) : String :=
  b58encode kp.secretKey

/-! Executable model of the external bs58 library (the base-58 alphabet used
by the reference network) and of `JSON.parse` restricted to integer arrays;
these instantiate the decoder parameters in the witnesses below.  `fuel`-style
recursion keeps every definition kernel-computable; 100 digits cover every
64-byte key. -/

/-- The Bitcoin/Solana base-58 alphabet. -/
def base58Alphabet : List Char :=
  "123456789ABCDEFGHJKLMNPQRSTUVWXYZabcdefghijkmnopqrstuvwxyz".toList

/-- Index of a character in the base-58 alphabet. -/
def b58digit (c : Char) : Option ℕ :=
  base58Alphabet.findIdx? (fun d => d == c)

/-- Big-endian digits of `n` in the given base, with an explicit fuel bound. -/
def natToDigitsBE (base : ℕ) : ℕ → ℕ → List ℕ
  | 0, _ => []
  | _ + 1, 0 => []
  | fuel + 1, n + 1 => natToDigitsBE base fuel ((n + 1) / base) ++ [(n + 1) % base]

/-- Model of `bs58.decode`: reject any character outside the alphabet, map
leading '1's to leading zero bytes, and decode the rest as a base-58 number
into big-endian bytes. -/
def bs58Decode (s : String) : Option (List ℕ) :=
  let cs := s.toList
  match cs.mapM b58digit with
  | none => none
  | some ds =>
      let zeros := (cs.takeWhile (fun c => c == '1')).length
      let n := ds.foldl (fun acc d => acc * 58 + d) 0
      some (List.replicate zeros 0 ++ natToDigitsBE 256 100 n)

/-- Model of `bs58.encode`: leading zero bytes become '1's and the remaining
big-endian number is written in base 58. -/
def bs58Encode (bs : List ℕ) : String :=
  let zeros := (bs.takeWhile (fun b => b == 0)).length
  let n := bs.foldl (fun acc b => acc * 256 + b) 0
  let ds := natToDigitsBE 58 100 n
  String.mk (List.replicate zeros '1' ++ ds.map (fun d => base58Alphabet.getD d '?'))

/-- Split a character list at commas. -/
def splitCommaAux : List Char → List Char → List (List Char)
  | [], cur => [cur.reverse]
  | c :: rest, cur =>
      if c = ',' then cur.reverse :: splitCommaAux rest []
      else splitCommaAux rest (c :: cur)

/-- Parse a non-empty all-digit character list as a natural number. -/
def parseNatDigits (cs : List Char) : Option ℕ :=
  if cs ≠ [] ∧ cs.all (fun c => c.isDigit) then
    some (cs.foldl (fun acc c => acc * 10 + (c.toNat - 48)) 0)
  else none

/-- Parse an optionally negated integer literal. -/
def parseIntToken (cs : List Char) : Option ℤ :=
  match cs with
  | '-' :: rest => (parseNatDigits rest).map (fun n => -(n : ℤ))
  | _ => (parseNatDigits cs).map (fun n => (n : ℤ))

/-- Model of `JSON.parse` restricted to what the constructor consumes: a
bracketed comma-separated list of integer literals parses to `intArray`;
anything else is a parse failure. -/
def jsonIntArrayParse (s : String) : Option JsonValue :=
  match s.toList with
  | '[' :: rest =>
      match rest.getLast? with
      | some ']' =>
          match (splitCommaAux rest.dropLast []).mapM parseIntToken with
          | some xs => some (JsonValue.intArray xs)
          | none => none
      | _ => none
  | _ => none

/-- JSON text of an array of byte values, e.g. "[0,1,2]". -/
def intArrayEncode (bs : List ℕ) : String :=
  "[" ++ String.intercalate "," (bs.map (fun b => toString b)) ++ "]"

lemma parseIdentityJsonPath_fails (jsonParse : String → Option JsonValue)
    (derivePub : List ℕ → List ℕ) (raw : String)
    (hj : ∀ xs, jsonParse raw = some (JsonValue.intArray xs) → xs.length ≠ 64) :
    parseIdentityJsonPath jsonParse derivePub raw = Except.error KeyError.invalidKeyFormat := by
  unfold parseIdentityJsonPath
  cases hjson : jsonParse raw with
  | none => rfl
  | some v =>
      cases v with
      | nonArray => rfl
      | intArray xs =>
          dsimp only
          rw [if_neg (hj xs hjson)]

/-- C3.  For every raw input on which the base-58 decoder yields no 64-byte
sequence and the JSON parse yields no 64-element integer array, the
`WalletManager` constructor tries base-58 first, then the integer-array
parse, and fails with the invalid-key-format error, constructing no identity;
the error is an `Except.error` value — a recoverable error handed back to the
caller, not a process abort.  The attempt list records that both encodings
were tried, in that order. -/
theorem parseIdentity_both_fail (b58decode : String → Option (List ℕ))
    (jsonParse : String → Option JsonValue) (derivePub : List ℕ → List ℕ)
    (raw : String)
    (hb : ∀ sk, b58decode raw = some sk → sk.length ≠ 64)
    (hj : ∀ xs, jsonParse raw = some (JsonValue.intArray xs) → xs.length ≠ 64) :
    parseIdentity b58decode jsonParse derivePub raw =
      (Except.error KeyError.invalidKeyFormat,
        [KeyAttempt.base58, KeyAttempt.jsonArray]) := by
  unfold parseIdentity
  cases hdec : b58decode raw with
  | none => rw [parseIdentityJsonPath_fails jsonParse derivePub raw hj]
  | some sk =>
      dsimp only
      rw [if_neg (hb sk hdec), parseIdentityJsonPath_fails jsonParse derivePub raw hj]

/-- C3, witness: "22" decodes in base-58 to the single byte [59] (wrong
length) and is not JSON, so both strategies are attempted and the constructor
fails with the invalid-key-format error. -/
theorem parseIdentity_both_fail_witness :
    parseIdentity bs58Decode jsonIntArrayParse (fun _ => []) "22" =
      (Except.error KeyError.invalidKeyFormat,
        [KeyAttempt.base58, KeyAttempt.jsonArray]) :=
  parseIdentity_both_fail bs58Decode jsonIntArrayParse (fun _ => []) "22"
    (fun sk h => by
      simp only [show bs58Decode "22" = some [59] from by decide,
        Option.some.injEq] at h
      subst h
      decide)
    (fun xs h => by
      rw [show jsonIntArrayParse "22" = none from by decide] at h
      exact Option.noConfusion h)

/-- C8.  For any 64-byte secret key accepted by the SDK (its trailing 32
bytes are the public key derived from its seed), and any base-58
encoder/decoder pair that round-trips on it: parsing its base-58 encoding
recovers exactly the identity with that secret key, using only the base-58
strategy; re-encoding via `getPrivateKey` returns the original encoding (so
`createNew`, which generates a keypair and feeds its bs58-encoded secret key
to the constructor, reproduces the same identity); the derived public key is
the one determined by the secret key; and parsing the 64-integer-array
encoding of the same key recovers the same identity. -/
theorem parseIdentity_roundtrip (b58encode : List ℕ → String)
    (b58decode : String → Option (List ℕ)) (jsonParse : String → Option JsonValue)
    (derivePub : List ℕ → List ℕ) (sk : List ℕ) (rawArr : String) (xs : List ℤ)
    (hlen : sk.length = 64)
    (hvalid : sk.drop 32 = derivePub (sk.take 32))
    (hrt : b58decode (b58encode sk) = some sk)
    (hdecArr : b58decode rawArr = none)
    (hjsonArr : jsonParse rawArr = some (JsonValue.intArray xs))
    (hxlen : xs.length = 64)
    (hxs : xs.map toUint8 = sk) :
    parseIdentity b58decode jsonParse derivePub (b58encode sk) =
      (Except.ok ⟨sk⟩, [KeyAttempt.base58]) ∧
    getPrivateKey b58encode ⟨sk⟩ = b58encode sk ∧
    Keypair.publicKey ⟨sk⟩ = derivePub (sk.take 32) ∧
    (parseIdentity b58decode jsonParse derivePub rawArr).1 = Except.ok ⟨sk⟩ := by
  have hfrom : fromSecretKey derivePub sk = some ⟨sk⟩ := by
    unfold fromSecretKey
    rw [if_pos ⟨hlen, hvalid⟩]
  refine ⟨?_, rfl, hvalid, ?_⟩
  · unfold parseIdentity
    rw [hrt]
    dsimp only
    rw [if_pos hlen, hfrom]
  · unfold parseIdentity
    rw [hdecArr]
    dsimp only
    unfold parseIdentityJsonPath
    rw [hjsonArr]
    dsimp only
    rw [if_pos hxlen, hxs, hfrom]

/-- The 64-byte secret key 0,1,...,63 used by the round-trip witness. -/
def wSk : List ℕ := List.range 64

/-- Derivation model accepting `wSk`: it maps the seed to bytes 32..63. -/
def wDerive : List ℕ → List ℕ := fun _ => (List.range 64).drop 32

/-- The integer-array reading of `wSk`. -/
def wXs : List ℤ := (List.range 64).map (fun n => (n : ℤ))

set_option maxRecDepth 1000000 in
/-- C8, witness: the round-trip theorem applied to the concrete key
0,1,...,63 with the executable bs58 model and the JSON-array model. -/
theorem parseIdentity_roundtrip_witness :
    parseIdentity bs58Decode jsonIntArrayParse wDerive (bs58Encode wSk) =
      (Except.ok ⟨wSk⟩, [KeyAttempt.base58]) ∧
    getPrivateKey bs58Encode ⟨wSk⟩ = bs58Encode wSk ∧
    Keypair.publicKey ⟨wSk⟩ = wDerive (wSk.take 32) ∧
    (parseIdentity bs58Decode jsonIntArrayParse wDerive (intArrayEncode wSk)).1 =
      Except.ok ⟨wSk⟩ :=
  parseIdentity_roundtrip bs58Encode bs58Decode jsonIntArrayParse wDerive wSk
    (intArrayEncode wSk) wXs (by decide) (by decide) (by decide) (by decide)
    (by decide) (by decide) (by decide)

end SolTx
